import Mathlib

/-!
# PlayStation 2 IOP drivers: DEV9 power sequencer and parallel ATA transfer engine

A shallow embedding of `drivers/ps2/iop-dev9.c` and `drivers/ata/pata_ps2.c`.

Conventions of the embedding.

* Machine integers are `Nat` (unsigned) or `Int` (`int` error codes); a value
  stored into a `u16` object is reduced `% 2 ^ 16`, the 8-bit bit-field
  `count` is reduced `% 2 ^ 8`.
* C functions with side effects are functions from a state to a result and a
  new state.  The services the drivers call but do not define (remote
  register access, `msleep`, the SIF command channel, libata callbacks) are
  recorded as events in a trace kept in the state; what they answer is given
  by an oracle that is a parameter of every function.
* `printk`, `dev_err`, `WARN_ON` and `WARN_ONCE` only log and are left out.
  `spin_lock_irqsave` / `spin_unlock_irqrestore` have no effect on a
  sequential run and are left out.
-/

/-! ## Part 1: `drivers/ps2/iop-dev9.c` -/

/-- Effects of the DEV9 driver on its environment, in program order. -/
inductive iop_event where
  | readw (addr : Nat)
  | writew (value addr : Nat)
  | readl (addr : Nat)
  | writel (value addr : Nat)
  | msleep (msecs : Nat)
  | inw (port : Nat)
  | module_request (name : String) (version : Nat)
  | set_dma_dpcr2_dev9
  deriving DecidableEq

/-- Register reads and writes that travel over the remote channel. -/
def iop_event.isAccess : iop_event → Bool
  | .readw _ => true
  | .writew _ _ => true
  | .readl _ => true
  | .writel _ _ => true
  | _ => false

/-- Register writes that travel over the remote channel. -/
def iop_event.isWrite : iop_event → Bool
  | .writew _ _ => true
  | .writel _ _ => true
  | _ => false

/-- Settle waits. -/
def iop_event.isSleep : iop_event → Bool
  | .msleep _ => true
  | _ => false

/-- The static `dev9` object together with the environment's history:
`rev` is `dev9.rev`, `n` counts the remote register accesses made so far and
`trace` lists every effect so far. -/
structure iop_state where
  rev : Nat
  n : Nat
  trace : List iop_event
  deriving DecidableEq

/-- The register channel: the answer `(err, value)` to the `i`-th remote
register access (counted from 0).  `value` is only meaningful for reads. -/
abbrev iop_channel := Nat → Int × Nat

def ENODEV : Int := 19
def EINVAL : Int := 22

/-- Modelled from the spec: `iop_readw` is declared in
`asm/mach-ps2/iop-registers.h`; the spec gives it as
`readRegister(addr) -> (value, error)` over the 16-bit register space. -/
def iop_readw (ch : iop_channel) (addr : Nat) (s : iop_state) : Int × Nat × iop_state :=
  ((ch s.n).1, (ch s.n).2 % 2 ^ 16,
    { s with n := s.n + 1, trace := s.trace ++ [iop_event.readw addr] })

/-- Modelled from the spec: `iop_writew` is declared in
`asm/mach-ps2/iop-registers.h`; the spec gives it as
`writeRegister(addr, value) -> error` over the 16-bit register space.  The
parameter is a `u16`, so the argument is reduced `% 2 ^ 16`. -/
def iop_writew (ch : iop_channel) (value addr : Nat) (s : iop_state) : Int × iop_state :=
  ((ch s.n).1,
    { s with n := s.n + 1, trace := s.trace ++ [iop_event.writew (value % 2 ^ 16) addr] })

/-- Modelled from the spec: `iop_readl`, the 32-bit counterpart of `iop_readw`. -/
def iop_readl (ch : iop_channel) (addr : Nat) (s : iop_state) : Int × Nat × iop_state :=
  ((ch s.n).1, (ch s.n).2 % 2 ^ 32,
    { s with n := s.n + 1, trace := s.trace ++ [iop_event.readl addr] })

/-- Modelled from the spec: `iop_writel`, the 32-bit counterpart of `iop_writew`. -/
def iop_writel (ch : iop_channel) (value addr : Nat) (s : iop_state) : Int × iop_state :=
  ((ch s.n).1,
    { s with n := s.n + 1, trace := s.trace ++ [iop_event.writel (value % 2 ^ 32) addr] })

/-- The kernel's `msleep`: a blocking wait, recorded in the trace. -/
def msleep (msecs : Nat) (s : iop_state) : iop_state :=
  { s with trace := s.trace ++ [iop_event.msleep msecs] }

-- DEFINE_DEV9_READ_WRITE_REG(reg, name): access at 0xbf800000 + reg.
def iop_dev9_read_1460 (ch : iop_channel) (s : iop_state) := iop_readw ch (0xbf800000 + 0x1460) s
def iop_dev9_write_1460 (ch : iop_channel) (value : Nat) (s : iop_state) :=
  iop_writew ch value (0xbf800000 + 0x1460) s
def iop_dev9_read_1462 (ch : iop_channel) (s : iop_state) := iop_readw ch (0xbf800000 + 0x1462) s
def iop_dev9_read_1464 (ch : iop_channel) (s : iop_state) := iop_readw ch (0xbf800000 + 0x1464) s
def iop_dev9_write_1464 (ch : iop_channel) (value : Nat) (s : iop_state) :=
  iop_writew ch value (0xbf800000 + 0x1464) s
def iop_dev9_write_1466 (ch : iop_channel) (value : Nat) (s : iop_state) :=
  iop_writew ch value (0xbf800000 + 0x1466) s
def iop_dev9_read_power (ch : iop_channel) (s : iop_state) := iop_readw ch (0xbf800000 + 0x146c) s
def iop_dev9_write_power (ch : iop_channel) (value : Nat) (s : iop_state) :=
  iop_writew ch value (0xbf800000 + 0x146c) s
def iop_dev9_read_rev (ch : iop_channel) (s : iop_state) := iop_readw ch (0xbf800000 + 0x146e) s

-- DEFINE_SSBUS_READ_WRITE_REG(reg, name)
def iop_ssbus_write_1418 (ch : iop_channel) (value : Nat) (s : iop_state) :=
  iop_writel ch value (0xbf800000 + 0x1418) s
def iop_ssbus_write_141c (ch : iop_channel) (value : Nat) (s : iop_state) :=
  iop_writel ch value (0xbf800000 + 0x141c) s
def iop_ssbus_write_1420 (ch : iop_channel) (value : Nat) (s : iop_state) :=
  iop_writel ch value (0xbf800000 + 0x1420) s

def pc_card (s : iop_state) : Bool := (s.rev &&& 0xf0) == 0x20

def exp_dev (s : iop_state) : Bool := (s.rev &&& 0xf0) == 0x30

/-- The result is `(err, *power, state)`. -/
def iop_dev9_power (ch : iop_channel) (s : iop_state) : Int × Bool × iop_state :=
  match iop_dev9_read_power ch s with
  | (err, raw, s) =>
    if err < 0 then (err, false, s)
    else (0, (raw &&& 0x4) != 0, s)

def exp_dev_probe (ch : iop_channel) (s : iop_state) : Int × iop_state :=
  match iop_dev9_read_1462 ch s with
  | (err, reg_1462, s) =>
    if err < 0 then (err, s)
    else (if reg_1462 &&& 0x1 ≠ 0 then -ENODEV else 0, s)

/-- In `(reg_power & ~0x1) | 0x4` the operand `~0x1` is the 32-bit `int`
pattern `0xfffffffe`; `reg_power` is a `u16` promoted to `int`. -/
def exp_dev_reset (ch : iop_channel) (s : iop_state) : Int × iop_state :=
  match exp_dev_probe ch s with
  | (err, s) =>
    if err < 0 then (err, s) else
    match iop_dev9_read_power ch s with
    | (err, reg_power, s) =>
      if err < 0 then (err, s) else
      match iop_dev9_write_power ch ((reg_power &&& 0xfffffffe) ||| 0x4) s with
      | (err, s) =>
        if err < 0 then (err, s) else
        match iop_dev9_read_1460 ch (msleep 500 s) with
        | (err, reg_1460, s) =>
          if err < 0 then (err, s) else
          match iop_dev9_write_1460 ch (reg_1460 ||| 0x1) s with
          | (err, s) =>
            if err < 0 then (err, s) else
            match iop_dev9_read_power ch s with
            | (err, reg_power, s) =>
              if err < 0 then (err, s) else
              match iop_dev9_write_power ch (reg_power ||| 0x1) s with
              | (err, s) =>
                if err < 0 then (err, s) else
                (0, msleep 500 s)

def exp_dev_init (ch : iop_channel) (s : iop_state) : Int × iop_state :=
  match iop_ssbus_write_1420 ch 0x51011 s with
  | (err, s) =>
    if err < 0 then (err, s) else
    match iop_ssbus_write_1418 ch 0xe01a3043 s with
    | (err, s) =>
      if err < 0 then (err, s) else
      match iop_ssbus_write_141c ch 0xef1a3043 s with
      | (err, s) =>
        if err < 0 then (err, s) else
        match iop_dev9_power ch s with
        | (err, power, s) =>
          if err < 0 then (err, s) else
          let powered : Int × iop_state :=
            if !power then
              match iop_dev9_write_1466 ch 1 s with
              | (err, s) =>
                if err < 0 then (err, s) else
                match iop_dev9_write_1464 ch 0 s with
                | (err, s) =>
                  if err < 0 then (err, s) else
                  match iop_dev9_read_1464 ch s with
                  | (err, reg_1464, s) =>
                    if err < 0 then (err, s) else
                    match iop_dev9_write_1460 ch reg_1464 s with
                    | (err, s) =>
                      if err < 0 then (err, s) else
                      exp_dev_reset ch s
            else (0, s)
          match powered with
          | (err, s) =>
            if err < 0 then (err, s) else
            match iop_dev9_write_1466 ch 0 s with
            | (err, s) =>
              if err < 0 then (err, s) else
              (0, { s with trace := s.trace ++ [iop_event.set_dma_dpcr2_dev9] })

/-- The three port reads `iop_speed_read_rev1`, `_rev3`, `_rev8`: `inw` at
`0x14000002`, `0x14000004` and `0x1400000e`; the values are only printed. -/
def iop_speed_read_rev (port : Nat) (s : iop_state) : iop_state :=
  { s with trace := s.trace ++ [iop_event.inw port] }

def rev_test (ch : iop_channel) (s : iop_state) : iop_state :=
  match iop_readw ch 0xb0000002 s with
  | (err, _, s) =>
    if err < 0 then s else
    match iop_readw ch 0xb0000004 s with
    | (err, _, s) =>
      if err < 0 then s else
      match iop_readw ch 0xb000000e s with
      | (_, _, s) => s

/-- Modelled from the spec: `iop_module_request` is declared in
`iop-module.h`; the spec treats the coprocessor module-loading request as an
available service.  It is recorded in the trace and answers `mreq`. -/
def iop_module_request (mreq : Int) (name : String) (version : Nat) (s : iop_state) :
    Int × iop_state :=
  (mreq, { s with trace := s.trace ++ [iop_event.module_request name version] })

/-- A C `return v;` that is followed by further statements of the same
block: the function yields `v`, and `rest`, the meaning of the statements
after it, is not run. -/
def return_then {α : Type} (v : α) (rest : α) : α :=
  match v, rest with
  | v, _ => v

/-- The body is lines 251-293 of the source: the unconditional `return 0;`
of line 255 is `return_then`, and what follows it in the source follows it
here. -/
def iop_dev9_init (ch : iop_channel) (mreq : Int) (s : iop_state) : Int × iop_state :=
  match iop_module_request mreq "dev9" 0x0100 s with
  | (err, s) =>
    if err < 0 then (err, s) else
    return_then (0, s) <|
    match iop_dev9_read_rev ch s with
    | (err, rev, s) =>
      let s := { s with rev := rev }
      if err < 0 then (err, s) else
      if pc_card s then (-EINVAL, s)
      else if exp_dev s then
        match exp_dev_init ch s with
        | (err, s) =>
          if err < 0 then (err, s) else
          let s := iop_speed_read_rev 0x14000002 s
          let s := iop_speed_read_rev 0x14000004 s
          let s := iop_speed_read_rev 0x1400000e s
          (0, rev_test ch s)
      else (-EINVAL, s)

/-- The `goto out` of every failing access leaves the function, which
returns nothing; `reg_power & ~0x4` and `reg_power & ~0x1` use the 32-bit
patterns `0xfffffffb` and `0xfffffffe`. -/
def iop_dev9_exit (ch : iop_channel) (s : iop_state) : iop_state :=
  if pc_card s then s
  else if exp_dev s then
    match iop_dev9_write_1466 ch 1 s with
    | (err, s) =>
      if err < 0 then s else
      match iop_dev9_write_1464 ch 0 s with
      | (err, s) =>
        if err < 0 then s else
        match iop_dev9_read_1464 ch s with
        | (err, reg_1464, s) =>
          if err < 0 then s else
          match iop_dev9_write_1460 ch reg_1464 s with
          | (err, s) =>
            if err < 0 then s else
            match iop_dev9_read_power ch s with
            | (err, reg_power, s) =>
              if err < 0 then s else
              match iop_dev9_write_power ch (reg_power &&& 0xfffffffb) s with
              | (err, s) =>
                if err < 0 then s else
                match iop_dev9_read_power ch s with
                | (err, reg_power, s) =>
                  if err < 0 then s else
                  match iop_dev9_write_power ch (reg_power &&& 0xfffffffe) s with
                  | (_, s) => s
  else s

/-- The events of a power-on sequence in which nothing aborts, as a function
of the channel's answers from access `n` on: the values written are
computed from the values read. -/
def power_on_events (ch : iop_channel) (n : Nat) : List iop_event :=
  [ iop_event.readw 0xbf801462,
    iop_event.readw 0xbf80146c,
    iop_event.writew ((((ch (n + 1)).2 % 2 ^ 16) &&& 0xfffffffe) ||| 0x4) 0xbf80146c,
    iop_event.msleep 500,
    iop_event.readw 0xbf801460,
    iop_event.writew (((ch (n + 3)).2 % 2 ^ 16) ||| 0x1) 0xbf801460,
    iop_event.readw 0xbf80146c,
    iop_event.writew (((ch (n + 5)).2 % 2 ^ 16) ||| 0x1) 0xbf80146c,
    iop_event.msleep 500 ]

/-! ## Part 2: `drivers/ata/pata_ps2.c` -/

-- enum iop_ata_rops
def rop_bb : Nat := 0
def rop_sg : Nat := 1
def rop_rd : Nat := 2
def rop_wr : Nat := 3

-- Constants of `linux/libata.h`.
def ATA_TFLAG_WRITE : Nat := 1 <<< 3
def ATA_TFLAG_POLLING : Nat := 1 <<< 6
def ATA_PROT_DMA : Nat := 2
def ATAPI_PROT_DMA : Nat := 10
def AC_ERR_OK : Nat := 0
def AC_ERR_SYSTEM : Nat := 1 <<< 6
def AC_ERR_INVALID : Nat := 1 <<< 7
def HSM_ST_LAST : Nat := 3

/-- The bit-fields of `union ata_sif_opt`: `op : 3`, `count : 8`, `write : 1`. -/
structure ata_sif_opt where
  op : Nat
  count : Nat
  write : Nat
  deriving DecidableEq

/-- The `raw` view of `union ata_sif_opt` on the little-endian target:
bit-fields are allocated from the least significant bit. -/
def ata_sif_opt.raw (opt : ata_sif_opt) : Nat :=
  opt.op % 2 ^ 3 + 2 ^ 3 * (opt.count % 2 ^ 8) + 2 ^ 11 * (opt.write % 2)

/-- The bit-field view of a raw option word, inverse of `ata_sif_opt.raw`. -/
def ata_sif_opt.ofRaw (raw : Nat) : ata_sif_opt :=
  { op := raw % 2 ^ 3, count := raw / 2 ^ 3 % 2 ^ 8, write := raw / 2 ^ 11 % 2 }

structure ata_sif_payload_sg where
  addr : Nat
  size : Nat
  deriving DecidableEq

/-- The layout shared by `struct ata_sif_rd` and `struct ata_sif_wr`. -/
structure ata_sif_rd where
  src : Nat
  dst : Nat
  size : Nat
  deriving DecidableEq

/-- One element of a mapped scatter-gather list: `sg_dma_address` is a
`dma_addr_t`, `sg_dma_len` an `unsigned int`. -/
structure scatterlist where
  dma_address : Nat
  dma_length : Nat
  deriving DecidableEq

structure ata_taskfile where
  flags : Nat
  protocol : Nat
  deriving DecidableEq

/-- The fields of `struct ata_queued_cmd` the driver touches.  `sg` is the
command's scatter-gather list and `cursg` the cursor into it: the entries
from the current one on, `[]` for a null cursor (`sg_next` of the last
entry is null). -/
structure ata_queued_cmd where
  tf : ata_taskfile
  sg : List scatterlist
  cursg : List scatterlist
  err_mask : Nat
  deriving DecidableEq

/-- One call of `sif_cmd_opt(SIF_CMD_ATA, opt.raw, data, size)`: the option
word and the `size / sizeof(entry)` entries the data pointer covers. -/
structure sif_packet where
  opt : ata_sif_opt
  payload : List ata_sif_payload_sg
  deriving DecidableEq

/-- Calls into libata's SFF layer made by the driver. -/
inductive sff_event where
  | tf_load (tf : ata_taskfile)
  | exec_command (tf : ata_taskfile)
  | interrupt
  | qc_issue (tf : ata_taskfile)
  deriving DecidableEq

/-- The port as the driver sees it.  `active` is what
`ata_qc_from_tag(ap, ap->link.active_tag)` yields, `hsm_task_state` is
`ap->hsm_task_state`, `sif` lists the packets handed to the SIF channel and
`sff` the calls into the SFF layer, both in program order. -/
structure ps2_port where
  hsm_task_state : Nat
  active : Option ata_queued_cmd
  sif : List sif_packet
  sff : List sff_event
  deriving DecidableEq

/-- The SIF channel: the value `sif_cmd_opt` returns for the `i`-th packet
handed to it (counted from 0). -/
abbrev sif_channel := Nat → Int

/-- Modelled from the spec: `sif_cmd_opt` is declared in
`asm/mach-ps2/sif.h`; the spec gives the channel as delivering packets made
of an option word and a payload.  The packet is appended to `sif`. -/
def sif_cmd_opt (ch : sif_channel) (opt : ata_sif_opt) (payload : List ata_sif_payload_sg)
    (ap : ps2_port) : Int × ps2_port :=
  (ch ap.sif.length, { ap with sif := ap.sif ++ [{ opt := opt, payload := payload }] })

/-- Completion is signalled by `ata_sff_interrupt`, recorded in `sff`. -/
def pata_ps2_dma_finished (ap : ps2_port) : ps2_port :=
  { ap with sff := ap.sff ++ [sff_event.interrupt] }

/-- The `while` loop of `pata_ps2_dma_request`, lines 120-136.  `C` is
`MAX_ATA_SIF_SG`; `payload` is the local array of `C` entries.  The result
is `(ret, cursg, opt, payload)`: `ret` is `some AC_ERR_SYSTEM` when the loop
left the function, `none` when it ran to its end.  `opt.count++` acts on an
8-bit field. -/
def pata_ps2_dma_request_loop (C : Nat) :
    List scatterlist → ata_sif_opt → List ata_sif_payload_sg →
      Option Nat × List scatterlist × ata_sif_opt × List ata_sif_payload_sg
  | [], opt, payload => (none, [], opt, payload)
  | sge :: rest, opt, payload =>
    if opt.count < C then
      let addr := sge.dma_address % 2 ^ 32
      let size := sge.dma_length
      if size &&& 0x7 ≠ 0 then (some AC_ERR_SYSTEM, sge :: rest, opt, payload)
      else
        pata_ps2_dma_request_loop C rest
          { opt with count := (opt.count + 1) % 2 ^ 8 }
          (payload.set opt.count { addr := addr, size := size })
    else (none, sge :: rest, opt, payload)

/-- The result is `(return value, *qc, *qc->ap)`.  The local `payload` is
uninitialised in the source; only the `opt.count` entries written by the
loop are handed to the channel, so its initial contents are taken as zero. -/
def pata_ps2_dma_request (C : Nat) (ch : sif_channel) (qc : ata_queued_cmd) (ap : ps2_port) :
    Nat × ata_queued_cmd × ps2_port :=
  let opt : ata_sif_opt :=
    { op := rop_sg, count := 0, write := if qc.tf.flags &&& ATA_TFLAG_WRITE ≠ 0 then 1 else 0 }
  if opt.write ≠ 0 then (AC_ERR_INVALID, qc, ap)
  else
    match pata_ps2_dma_request_loop C qc.cursg opt (List.replicate C { addr := 0, size := 0 }) with
    | (some ret, cursg, _, _) => (ret, { qc with cursg := cursg }, ap)
    | (none, cursg, opt, payload) =>
      match sif_cmd_opt ch opt (payload.take opt.count) { ap with hsm_task_state := HSM_ST_LAST } with
      | (err, ap) =>
        if err < 0 then (AC_ERR_SYSTEM, { qc with cursg := cursg }, ap)
        else (AC_ERR_OK, { qc with cursg := cursg }, ap)

/-- The handler of an inbound ScatterGather packet.  The value
`pata_ps2_dma_request` returns is not used (line 161). -/
def pata_ps2_cmd_sg (C : Nat) (ch : sif_channel) (ap : ps2_port) : ps2_port :=
  match ap.active with
  | some qc =>
    if qc.tf.flags &&& ATA_TFLAG_POLLING = 0 then
      if qc.cursg ≠ [] then
        match pata_ps2_dma_request C ch qc ap with
        | (_, qc, ap) => { ap with active := some qc }
      else pata_ps2_dma_finished ap
    else ap
  | none => ap

/-- The result is `(return value, *qc, *qc->ap)`; `sff_tf_load` and
`sff_exec_command` are the SFF layer's, recorded in `sff`. -/
def pata_ps2_qc_issue_dma (C : Nat) (ch : sif_channel) (qc : ata_queued_cmd) (ap : ps2_port) :
    Nat × ata_queued_cmd × ps2_port :=
  let ap := { ap with sff := ap.sff ++ [sff_event.tf_load qc.tf] }
  let qc := { qc with cursg := qc.sg }
  let ap := { ap with sff := ap.sff ++ [sff_event.exec_command qc.tf] }
  pata_ps2_dma_request C ch qc ap

/-- The default case hands the command to libata's `ata_sff_qc_issue`,
recorded in `sff`; `sff_ret` is what it returns. -/
def pata_ps2_qc_issue (C : Nat) (ch : sif_channel) (sff_ret : Nat) (qc : ata_queued_cmd)
    (ap : ps2_port) : Nat × ata_queued_cmd × ps2_port :=
  if qc.tf.protocol = ATA_PROT_DMA then pata_ps2_qc_issue_dma C ch qc ap
  else if qc.tf.protocol = ATAPI_PROT_DMA then (AC_ERR_INVALID, qc, ap)
  else (sff_ret, qc, { ap with sff := ap.sff ++ [sff_event.qc_issue qc.tf] })

/-- One call of `sif_cmd_opt_data`, made by `pata_ps2_cmd_wr`: option word,
remote destination, host source and size of the data sent along. -/
structure sif_data_packet where
  opt : ata_sif_opt
  dst : Nat
  src : Nat
  size : Nat
  deriving DecidableEq

/-- The host side of the channel: the port, host memory as a map from
virtual address to byte, and the data packets sent by `pata_ps2_cmd_wr`. -/
structure ps2_host where
  port : ps2_port
  mem : Nat → Nat
  sif_data : List sif_data_packet

/-- Modelled from the spec: `memcpy` is the kernel's, outside the driver;
the spec gives the RawRead action as a copy `dst ← src` of `size` bytes.  It
is the forward byte loop: `memcpy mem dst src n` is memory after bytes
`0 .. n-1` have been copied in increasing order. -/
def memcpy (mem : Nat → Nat) (dst src : Nat) : Nat → Nat → Nat
  | 0 => mem
  | n + 1 =>
    let m := memcpy mem dst src n
    fun a => if a = dst + n then m (src + n) else m a

/-- The address translation `phys_to_virt` comes from the architecture
headers and is a parameter. -/
def pata_ps2_cmd_rd (phys_to_virt : Nat → Nat) (rd : ata_sif_rd) (h : ps2_host) : ps2_host :=
  if rd.size ≠ 0 then
    { h with mem := memcpy h.mem (phys_to_virt rd.dst) (phys_to_virt rd.src) rd.size }
  else h

def pata_ps2_cmd_wr (wr : ata_sif_rd) (h : ps2_host) : ps2_host :=
  { h with
    sif_data := h.sif_data ++
      [{ opt := { op := rop_wr, count := 0, write := 0 }, dst := wr.dst, src := wr.src,
         size := wr.size }] }

/-- The inbound packet: its option word and the payload that follows the
header, read as three 32-bit words. -/
structure sif_cmd_header where
  opt : Nat
  payload : ata_sif_rd
  deriving DecidableEq

def pata_ps2_sif_cmd (C : Nat) (ch : sif_channel) (phys_to_virt : Nat → Nat)
    (header : sif_cmd_header) (h : ps2_host) : ps2_host :=
  let opt := ata_sif_opt.ofRaw header.opt
  if opt.op = rop_sg then { h with port := pata_ps2_cmd_sg C ch h.port }
  else if opt.op = rop_rd then pata_ps2_cmd_rd phys_to_virt header.payload h
  else if opt.op = rop_wr then pata_ps2_cmd_wr header.payload h
  else h

/-! ### The environment of a transfer -/

/-- The payload entry the loop of `pata_ps2_dma_request` builds from a
scatter-gather element. -/
def sg_entry (sge : scatterlist) : ata_sif_payload_sg :=
  { addr := sge.dma_address % 2 ^ 32, size := sge.dma_length }

/-- Issue of a DMA command by libata: the command handed to
`pata_ps2_qc_issue_dma` is the one libata has made the port's active
command, so the command as the call leaves it is what `active` yields. -/
def issue_dma (C : Nat) (ch : sif_channel) (qc : ata_queued_cmd) (ap : ps2_port) :
    Nat × ps2_port :=
  match pata_ps2_qc_issue_dma C ch qc ap with
  | (ret, qc, ap) => (ret, { ap with active := some qc })

/-- The coprocessor acknowledging packets: ScatterGather packets are handed
to `pata_ps2_cmd_sg` one after the other until a call signals completion
(`pata_ps2_dma_finished` ran), at most `fuel` of them.  The result is the
number of acknowledgements delivered and the port after the last one, or
`none` when `fuel` acknowledgements did not reach completion. -/
def ack_until_finished (C : Nat) (ch : sif_channel) : Nat → ps2_port → Option (Nat × ps2_port)
  | 0, _ => none
  | fuel + 1, ap =>
    let ap1 := pata_ps2_cmd_sg C ch ap
    if ap1.sff = ap.sff ++ [sff_event.interrupt] then some (1, ap1)
    else
      match ack_until_finished C ch fuel ap1 with
      | some (k, apf) => some (k + 1, apf)
      | none => none

/-- Specification side: the ScatterGather packet that carries the first `C`
entries of `l`. -/
def sg_packet (C : Nat) (l : List scatterlist) : sif_packet :=
  { opt := { op := rop_sg, count := min C l.length, write := 0 },
    payload := (l.take C).map sg_entry }

/-- Specification side: the packets that carry the entries of `l` in order,
`C` to a packet, none for the empty list; `n` bounds their number. -/
def sg_packets (C : Nat) : Nat → List scatterlist → List sif_packet
  | 0, _ => []
  | n + 1, l => if l = [] then [] else sg_packet C l :: sg_packets C n (l.drop C)

/-! ### Concrete inputs -/

/-- A channel on which every send succeeds. -/
def sif_ok : sif_channel := fun _ => 0

/-- A port with no active command and no history. -/
def port_idle : ps2_port := { hsm_task_state := 0, active := none, sif := [], sff := [] }

/-- A DMA read command (no task-file flag set) on the list `l`, not yet issued. -/
def read_cmd (l : List scatterlist) : ata_queued_cmd :=
  { tf := { flags := 0, protocol := ATA_PROT_DMA }, sg := l, cursg := [], err_mask := 0 }

/-- A DMA write command on the list `l`, not yet issued. -/
def write_cmd (l : List scatterlist) : ata_queued_cmd :=
  { tf := { flags := ATA_TFLAG_WRITE, protocol := ATA_PROT_DMA }, sg := l, cursg := [],
    err_mask := 0 }

/-- A register channel on which every access succeeds and every read yields `v`. -/
def regs_const (v : Nat) : iop_channel := fun _ => (0, v)

/-- A register channel whose access number `k` (counted from 0) fails with
`e`; every other access succeeds and every read yields `v`. -/
def regs_fail_at (k : Nat) (e : Int) (v : Nat) : iop_channel :=
  fun i => if i = k then (e, v) else (0, v)

/-- The DEV9 driver at module load: `dev9.rev` is 0, nothing has happened. -/
def iop_boot : iop_state := { rev := 0, n := 0, trace := [] }

/-- A host whose port is idle and whose memory holds `a % 256` at address `a`. -/
def host_idle : ps2_host := { port := port_idle, mem := fun a => a % 256, sif_data := [] }

/-! ## Part 3: properties of the DEV9 power sequencer -/

theorem u16_and_or (p : Nat) :
    (((p % 2 ^ 16) &&& 0xfffffffe) ||| 0x4) % 2 ^ 16 = ((p % 2 ^ 16) &&& 0xfffffffe) ||| 0x4 := by
  apply Nat.mod_eq_of_lt
  apply Nat.or_lt_two_pow
  · exact lt_of_le_of_lt Nat.and_le_left (Nat.mod_lt _ (by norm_num))
  · norm_num

theorem u16_or_one (p : Nat) : ((p % 2 ^ 16) ||| 0x1) % 2 ^ 16 = (p % 2 ^ 16) ||| 0x1 := by
  apply Nat.mod_eq_of_lt
  apply Nat.or_lt_two_pow
  · exact (Nat.mod_lt _ (by norm_num))
  · norm_num

theorem exp_dev_probe_eq (ch : iop_channel) (s : iop_state) :
    exp_dev_probe ch s =
      (if (ch s.n).1 < 0 then (ch s.n).1
        else if ((ch s.n).2 % 2 ^ 16) &&& 0x1 ≠ 0 then -ENODEV else 0,
        { s with n := s.n + 1, trace := s.trace ++ [iop_event.readw 0xbf801462] }) := by
  unfold exp_dev_probe iop_dev9_read_1462 iop_readw
  by_cases h : (ch s.n).1 < 0
  · simp only [h, if_true]
  · simp only [h, if_false]

/-- Claim C6.  On a register channel whose seven accesses all succeed and
whose probe register has bit 0 clear, `exp_dev_reset` returns 0 and its
effects are, in order: read 0x1462, read power, write power with
`(p & ~0x1) | 0x4`, wait 500, read 0x1460, write 0x1460 with `r | 0x1`, read
power, write power with `p1 | 0x1`, wait 500: two waits of 500, three
register writes, seven register accesses. -/
theorem exp_dev_reset_power_on (ch : iop_channel) (s : iop_state)
    (hok : ∀ i, i < 7 → 0 ≤ (ch (s.n + i)).1)
    (hprobe : ((ch s.n).2 % 2 ^ 16) &&& 0x1 = 0) :
    exp_dev_reset ch s =
      (0, { s with n := s.n + 7, trace := s.trace ++ power_on_events ch s.n }) ∧
    ((power_on_events ch s.n).filter iop_event.isSleep = [iop_event.msleep 500, iop_event.msleep 500]) ∧
    ((power_on_events ch s.n).filter iop_event.isWrite).length = 3 ∧
    ((power_on_events ch s.n).filter iop_event.isAccess).length = 7 := by
  have h0 := hok 0 (by omega)
  have h1 := hok 1 (by omega)
  have h2 := hok 2 (by omega)
  have h3 := hok 3 (by omega)
  have h4 := hok 4 (by omega)
  have h5 := hok 5 (by omega)
  have h6 := hok 6 (by omega)
  simp only [Nat.add_zero] at h0
  refine ⟨?_, ?_, ?_, ?_⟩
  · unfold exp_dev_reset
    rw [exp_dev_probe_eq]
    simp only [not_lt.mpr h0, hprobe, ne_eq, not_true_eq_false, if_false, lt_self_iff_false]
    simp only [iop_dev9_read_power, iop_dev9_write_power,
      iop_dev9_read_1460, iop_dev9_write_1460, iop_readw, iop_writew, msleep, power_on_events,
      not_lt.mpr h1, not_lt.mpr h2, not_lt.mpr h3, not_lt.mpr h4, not_lt.mpr h5,
      not_lt.mpr h6, if_false, Nat.add_assoc, u16_and_or, u16_or_one, List.append_assoc,
      List.cons_append, List.nil_append]
  · simp [power_on_events, iop_event.isSleep]
  · simp [power_on_events, iop_event.isWrite]
  · simp [power_on_events, iop_event.isAccess]

/-- Claim C7.  When the read of the probe register 0x1462 succeeds: with
bit 0 set `exp_dev_probe` returns `-ENODEV` and `exp_dev_reset` returns
`-ENODEV` having made that one read and nothing else; with bit 0 clear
`exp_dev_probe` returns 0. -/
theorem exp_dev_absent (ch : iop_channel) (s : iop_state) (hread : 0 ≤ (ch s.n).1) :
    (((ch s.n).2 % 2 ^ 16) &&& 0x1 ≠ 0 →
      (exp_dev_probe ch s).1 = -ENODEV ∧
      exp_dev_reset ch s =
        (-ENODEV, { s with n := s.n + 1, trace := s.trace ++ [iop_event.readw 0xbf801462] })) ∧
    (((ch s.n).2 % 2 ^ 16) &&& 0x1 = 0 → (exp_dev_probe ch s).1 = 0) := by
  constructor
  · intro hbit
    unfold exp_dev_reset
    rw [exp_dev_probe_eq]
    simp only [not_lt.mpr hread, hbit, ne_eq, not_false_eq_true, if_true, if_false]
    simp [ENODEV]
  · intro hbit
    rw [exp_dev_probe_eq]
    simp only [not_lt.mpr hread, hbit, ne_eq, not_true_eq_false, if_false]

/-- Claim C8.  For `k` from 1 to 7: when the first `k - 1` register accesses
of `exp_dev_reset` succeed, with the probe bit clear, and access `k` fails
with the negative error `e`, the function returns `e` after exactly `k`
accesses, and its effects are the fault-free sequence cut right after
access `k`: nothing follows the failing access, no write undoes an earlier
one. -/
theorem exp_dev_reset_abort (ch : iop_channel) (s : iop_state) (k : Nat) (e : Int)
    (hk1 : 1 ≤ k) (hk7 : k ≤ 7)
    (hok : ∀ i, i + 1 < k → 0 ≤ (ch (s.n + i)).1)
    (hprobe : 2 ≤ k → ((ch s.n).2 % 2 ^ 16) &&& 0x1 = 0)
    (hfail : (ch (s.n + (k - 1))).1 = e) (he : e < 0) :
    exp_dev_reset ch s =
      (e, { s with
              n := s.n + k,
              trace := s.trace ++ (power_on_events ch s.n).take (if k < 4 then k else k + 1) }) := by
  have h0 : 1 < k → ¬ (ch s.n).1 < 0 := fun h => not_lt.mpr (hok 0 (by omega))
  have h1 : 2 < k → ¬ (ch (s.n + 1)).1 < 0 := fun h => not_lt.mpr (hok 1 (by omega))
  have h2 : 3 < k → ¬ (ch (s.n + 2)).1 < 0 := fun h => not_lt.mpr (hok 2 (by omega))
  have h3 : 4 < k → ¬ (ch (s.n + 3)).1 < 0 := fun h => not_lt.mpr (hok 3 (by omega))
  have h4 : 5 < k → ¬ (ch (s.n + 4)).1 < 0 := fun h => not_lt.mpr (hok 4 (by omega))
  have h5 : 6 < k → ¬ (ch (s.n + 5)).1 < 0 := fun h => not_lt.mpr (hok 5 (by omega))
  have hp : 1 < k → ((ch s.n).2 % 2 ^ 16) &&& 0x1 = 0 := fun h => hprobe (by omega)
  clear hok hprobe
  unfold exp_dev_reset
  rw [exp_dev_probe_eq]
  interval_cases k
  all_goals simp only [Nat.add_zero, Nat.sub_self, Nat.add_one_sub_one, Nat.reduceSub] at hfail
  all_goals subst hfail
  all_goals simp only [Nat.reduceLT, forall_true_left, false_implies] at h0 h1 h2 h3 h4 h5 hp
  all_goals simp only [iop_dev9_read_power, iop_dev9_write_power,
      iop_dev9_read_1460, iop_dev9_write_1460, iop_readw, iop_writew, msleep, power_on_events,
      he, if_true, if_false, Nat.add_assoc, u16_and_or, u16_or_one, List.append_assoc,
      List.cons_append, List.nil_append, List.take, Nat.reduceAdd, Nat.reduceLT,
      h0, h1, h2, h3, h4, h5, hp, ne_eq, not_true_eq_false, not_false_eq_true, lt_self_iff_false]

/-- Claim C10.  For every answer of the module request and every register
channel, `iop_dev9_init` returns the request's error when it is negative
and 0 otherwise, its only effect is the module request (no register access,
`dev9.rev` untouched), and with `dev9.rev` at 0 `iop_dev9_exit` does
nothing. -/
theorem iop_dev9_init_skips_sequencer (ch : iop_channel) (mreq : Int) (s : iop_state) :
    iop_dev9_init ch mreq s =
      (if mreq < 0 then mreq else 0,
        { s with trace := s.trace ++ [iop_event.module_request "dev9" 0x0100] }) ∧
    ((iop_dev9_init ch mreq s).2.trace.filter iop_event.isAccess = s.trace.filter iop_event.isAccess) ∧
    iop_dev9_exit ch (iop_dev9_init ch mreq { s with rev := 0 }).2 =
      (iop_dev9_init ch mreq { s with rev := 0 }).2 := by
  have hinit : ∀ t : iop_state, iop_dev9_init ch mreq t =
      (if mreq < 0 then mreq else 0,
        { t with trace := t.trace ++ [iop_event.module_request "dev9" 0x0100] }) := by
    intro t
    unfold iop_dev9_init iop_module_request return_then
    by_cases h : mreq < 0
    · simp only [h, if_true]
    · simp only [h, if_false]
  refine ⟨hinit s, ?_, ?_⟩
  · rw [hinit]
    simp [iop_event.isAccess]
  · rw [hinit]
    simp [iop_dev9_exit, pc_card, exp_dev]

/-! ## Part 4: properties of the ATA transfer engine -/

theorem and_seven_eq_mod (n : Nat) : n &&& 0x7 = n % 8 :=
  Nat.and_pow_two_sub_one_eq_mod n 3

theorem ata_sif_opt_eta (opt : ata_sif_opt) : { opt with count := opt.count } = opt := by
  cases opt; rfl

theorem take_set_succ {α : Type} (pl : List α) (c : Nat) (x : α) (h : c < pl.length) :
    (pl.set c x).take (c + 1) = pl.take c ++ [x] := by
  induction pl generalizing c with
  | nil => simp at h
  | cons a t ih =>
    cases c with
    | zero => simp
    | succ c =>
      simp only [List.length_cons, Nat.add_lt_add_iff_right] at h
      simp [ih c h]

/-- The loop on aligned entries: it packs the next `C - count` entries (all
that remain when fewer do), leaves without a return value, and the first
`count` entries of the array are the ones it had plus the packed ones. -/
theorem dma_request_loop_aligned (C : Nat) (hC : C ≤ 255) :
    ∀ (l : List scatterlist) (opt : ata_sif_opt) (pl : List ata_sif_payload_sg),
      opt.count ≤ C → C ≤ pl.length → (∀ e ∈ l, e.dma_length % 8 = 0) →
      ∃ pl', pata_ps2_dma_request_loop C l opt pl =
          (none, l.drop (C - opt.count),
            { opt with count := opt.count + min (C - opt.count) l.length }, pl') ∧
        pl'.length = pl.length ∧
        pl'.take (opt.count + min (C - opt.count) l.length) =
          pl.take opt.count ++ (l.take (C - opt.count)).map sg_entry := by
  intro l
  induction l with
  | nil =>
    intro opt pl _ _ _
    refine ⟨pl, ?_, rfl, ?_⟩
    · simp [pata_ps2_dma_request_loop, ata_sif_opt_eta]
    · simp
  | cons e rest ih =>
    intro opt pl hc hpl hal
    by_cases hlt : opt.count < C
    · have he : e.dma_length &&& 0x7 = 0 := by
        rw [and_seven_eq_mod]; exact hal e (List.mem_cons_self _ _)
      have hmod : (opt.count + 1) % 2 ^ 8 = opt.count + 1 := Nat.mod_eq_of_lt (by omega)
      obtain ⟨pl', h1, h2, h3⟩ := ih { opt with count := opt.count + 1 }
        (pl.set opt.count (sg_entry e)) (by simpa using hlt) (by simpa using hpl)
        (fun x hx => hal x (List.mem_cons_of_mem _ hx))
      refine ⟨pl', ?_, ?_, ?_⟩
      · simp only [pata_ps2_dma_request_loop, hlt, if_true, he, ne_eq, not_true_eq_false, if_false,
          hmod]
        rw [show sg_entry e = { addr := e.dma_address % 2 ^ 32, size := e.dma_length } from rfl] at h1
        rw [h1]
        have hd : C - opt.count = (C - (opt.count + 1)) + 1 := by omega
        simp only [Prod.mk.injEq, true_and, and_true]
        constructor
        · rw [hd]; simp
        · simp only [List.length_cons]
          congr 1
          omega
      · simpa using h2
      · have hidx : opt.count + min (C - opt.count) (e :: rest).length =
            opt.count + 1 + min (C - (opt.count + 1)) rest.length := by
          simp only [List.length_cons]; omega
        rw [hidx]
        simp only at h3
        rw [h3, take_set_succ pl opt.count (sg_entry e) (by omega)]
        have hd : C - opt.count = (C - (opt.count + 1)) + 1 := by omega
        rw [hd]
        simp
    · have hz : C - opt.count = 0 := by omega
      refine ⟨pl, ?_, rfl, ?_⟩
      · simp [pata_ps2_dma_request_loop, hlt, hz, ata_sif_opt_eta]
      · simp [hz]

/-- The loop leaves the function with `AC_ERR_SYSTEM` when one of the next
`k` entries is misaligned and the array has room for `k` more. -/
theorem dma_request_loop_misaligned (C : Nat) :
    ∀ (l : List scatterlist) (opt : ata_sif_opt) (pl : List ata_sif_payload_sg) (k : Nat),
      opt.count < 2 ^ 8 → k + opt.count ≤ C → (∃ e ∈ l.take k, e.dma_length % 8 ≠ 0) →
      (pata_ps2_dma_request_loop C l opt pl).1 = some AC_ERR_SYSTEM := by
  intro l
  induction l with
  | nil =>
    intro opt pl k _ _ h
    obtain ⟨e, he, _⟩ := h
    simp at he
  | cons e rest ih =>
    intro opt pl k hc hk h
    obtain ⟨x, hx, hxm⟩ := h
    cases k with
    | zero => simp at hx
    | succ k =>
      have hlt : opt.count < C := by omega
      simp only [List.take_succ_cons, List.mem_cons] at hx
      by_cases he : e.dma_length &&& 0x7 = 0
      · have hxr : x ∈ rest.take k := by
          rcases hx with rfl | hx
          · rw [and_seven_eq_mod] at he; exact absurd he hxm
          · exact hx
        have hle : (opt.count + 1) % 2 ^ 8 ≤ opt.count + 1 := Nat.mod_le _ _
        have := ih { opt with count := (opt.count + 1) % 2 ^ 8 }
          (pl.set opt.count { addr := e.dma_address % 2 ^ 32, size := e.dma_length }) k
          (Nat.mod_lt _ (by norm_num)) (by simp only; omega) ⟨x, hxr, hxm⟩
        simpa [pata_ps2_dma_request_loop, hlt, he] using this
      · simp [pata_ps2_dma_request_loop, hlt, he]

theorem write_flag_clear (qc : ata_queued_cmd) (hread : qc.tf.flags &&& ATA_TFLAG_WRITE = 0) :
    (if qc.tf.flags &&& ATA_TFLAG_WRITE ≠ 0 then 1 else 0 : Nat) = 0 := by
  simp [hread]

/-- One call of `pata_ps2_dma_request` on a read command whose remaining
entries are aligned: it packs the next `C` entries into one packet. -/
theorem dma_request_aligned (C : Nat) (ch : sif_channel) (qc : ata_queued_cmd) (ap : ps2_port)
    (hC : C ≤ 255) (hread : qc.tf.flags &&& ATA_TFLAG_WRITE = 0)
    (hal : ∀ e ∈ qc.cursg, e.dma_length % 8 = 0) :
    pata_ps2_dma_request C ch qc ap =
      (if ch ap.sif.length < 0 then AC_ERR_SYSTEM else AC_ERR_OK,
        { qc with cursg := qc.cursg.drop C },
        { ap with
          hsm_task_state := HSM_ST_LAST,
          sif := ap.sif ++
            [{ opt := { op := rop_sg, count := min C qc.cursg.length, write := 0 },
               payload := (qc.cursg.take C).map sg_entry }] }) := by
  obtain ⟨pl', h1, _, h3⟩ := dma_request_loop_aligned C hC qc.cursg
    { op := rop_sg, count := 0, write := 0 } (List.replicate C { addr := 0, size := 0 })
    (Nat.zero_le _) (by simp) hal
  simp only [Nat.sub_zero, Nat.zero_add, List.take_zero, List.nil_append] at h1 h3
  unfold pata_ps2_dma_request
  simp only [write_flag_clear qc hread, ne_eq, not_true_eq_false, if_false, h1, sif_cmd_opt, h3]
  by_cases h : ch ap.sif.length < 0
  · simp only [h, if_true]
  · simp only [h, if_false]

/-- When the loop leaves the function, the call returns the loop's value and
the port is as it was. -/
theorem dma_request_loop_return (C : Nat) (ch : sif_channel) (qc : ata_queued_cmd)
    (ap : ps2_port) (ret : Nat) (hread : qc.tf.flags &&& ATA_TFLAG_WRITE = 0)
    (hloop : (pata_ps2_dma_request_loop C qc.cursg { op := rop_sg, count := 0, write := 0 }
      (List.replicate C { addr := 0, size := 0 })).1 = some ret) :
    (pata_ps2_dma_request C ch qc ap).1 = ret ∧ (pata_ps2_dma_request C ch qc ap).2.2 = ap := by
  unfold pata_ps2_dma_request
  simp only [write_flag_clear qc hread, ne_eq, not_true_eq_false, if_false]
  rcases hres : pata_ps2_dma_request_loop C qc.cursg { op := rop_sg, count := 0, write := 0 }
      (List.replicate C { addr := 0, size := 0 }) with ⟨r, cursg, opt, pl⟩
  rw [hres] at hloop
  simp only at hloop
  subst hloop
  simp

/-- An acknowledgement for a non-polling read command with aligned entries
left: the next packet goes out and the cursor advances. -/
theorem cmd_sg_next (C : Nat) (ch : sif_channel) (qc : ata_queued_cmd) (ap : ps2_port)
    (hC : C ≤ 255) (hact : ap.active = some qc)
    (hread : qc.tf.flags &&& ATA_TFLAG_WRITE = 0)
    (hpoll : qc.tf.flags &&& ATA_TFLAG_POLLING = 0)
    (hal : ∀ e ∈ qc.cursg, e.dma_length % 8 = 0) (hne : qc.cursg ≠ []) :
    pata_ps2_cmd_sg C ch ap =
      { ap with
        hsm_task_state := HSM_ST_LAST,
        active := some { qc with cursg := qc.cursg.drop C },
        sif := ap.sif ++
          [{ opt := { op := rop_sg, count := min C qc.cursg.length, write := 0 },
             payload := (qc.cursg.take C).map sg_entry }] } := by
  unfold pata_ps2_cmd_sg
  rw [hact]
  simp only [hpoll, if_true, ne_eq, hne, not_false_eq_true,
    dma_request_aligned C ch qc ap hC hread hal]

/-- An acknowledgement for a non-polling command whose cursor is null
signals completion and does nothing else. -/
theorem cmd_sg_finished (C : Nat) (ch : sif_channel) (qc : ata_queued_cmd) (ap : ps2_port)
    (hact : ap.active = some qc) (hpoll : qc.tf.flags &&& ATA_TFLAG_POLLING = 0)
    (hnil : qc.cursg = []) :
    pata_ps2_cmd_sg C ch ap = { ap with sff := ap.sff ++ [sff_event.interrupt] } := by
  unfold pata_ps2_cmd_sg pata_ps2_dma_finished
  rw [hact]
  simp only [hpoll, if_true, hnil, ne_eq, not_true_eq_false, if_false]

theorem sg_packets_nil (C n : Nat) : sg_packets C n [] = [] := by
  cases n <;> simp [sg_packets]

theorem sg_packets_length (C : Nat) (hC : 1 ≤ C) :
    ∀ (n : Nat) (l : List scatterlist), l.length ≤ n →
      (sg_packets C n l).length = (l.length + C - 1) / C := by
  intro n
  induction n with
  | zero =>
    intro l hl
    have : l.length = 0 := by omega
    simp only [sg_packets, List.length_nil, this, Nat.zero_add]
    exact (Nat.div_eq_of_lt (by omega)).symm
  | succ n ih =>
    intro l hl
    by_cases hnil : l = []
    · subst hnil
      simp only [sg_packets_nil, List.length_nil, Nat.zero_add]
      exact (Nat.div_eq_of_lt (by omega)).symm
    · have hpos : 0 < l.length := List.length_pos.mpr hnil
      simp only [sg_packets, hnil, if_false, List.length_cons]
      rw [ih (l.drop C) (by simp only [List.length_drop]; omega), List.length_drop]
      by_cases hge : C ≤ l.length
      · have : l.length + C - 1 = (l.length - C + C - 1) + C := by omega
        rw [this, Nat.add_div_right _ (by omega)]
      · have h1 : l.length - C + C - 1 = C - 1 := by omega
        have h2 : l.length + C - 1 = (l.length - 1) + C := by omega
        rw [h1, h2, Nat.add_div_right _ (by omega), Nat.div_eq_of_lt (by omega),
          Nat.div_eq_of_lt (by omega)]

theorem sg_packets_join (C : Nat) (hC : 1 ≤ C) :
    ∀ (n : Nat) (l : List scatterlist), l.length ≤ n →
      ((sg_packets C n l).map sif_packet.payload).flatten = l.map sg_entry := by
  intro n
  induction n with
  | zero =>
    intro l hl
    have : l = [] := List.length_eq_zero.mp (by omega)
    simp [sg_packets, this]
  | succ n ih =>
    intro l hl
    by_cases hnil : l = []
    · subst hnil
      simp [sg_packets_nil]
    · have hpos : 0 < l.length := List.length_pos.mpr hnil
      simp only [sg_packets, hnil, if_false, List.map_cons, List.flatten_cons]
      rw [ih (l.drop C) (by simp only [List.length_drop]; omega)]
      simp only [sg_packet, ← List.map_append, List.take_append_drop]

theorem sg_packets_bounds (C : Nat) :
    ∀ (n : Nat) (l : List scatterlist), ∀ p ∈ sg_packets C n l,
      p.opt.op = rop_sg ∧ p.opt.write = 0 ∧ p.opt.count = p.payload.length ∧
        p.payload.length ≤ C := by
  intro n
  induction n with
  | zero => intro l p hp; simp [sg_packets] at hp
  | succ n ih =>
    intro l p hp
    by_cases hnil : l = []
    · simp [sg_packets, hnil] at hp
    · simp only [sg_packets, hnil, if_false, List.mem_cons] at hp
      rcases hp with rfl | hp
      · simp [sg_packet, List.length_take]
      · exact ih _ p hp

/-- Acknowledgements delivered to a port whose active command is a
non-polling read with aligned entries left: the remaining packets go out,
one per acknowledgement, and one more acknowledgement signals completion. -/
theorem ack_until_finished_run (C : Nat) (ch : sif_channel) (hC1 : 1 ≤ C) (hC : C ≤ 255) :
    ∀ (n : Nat) (qc : ata_queued_cmd) (ap : ps2_port),
      ap.active = some qc → qc.tf.flags &&& ATA_TFLAG_WRITE = 0 →
      qc.tf.flags &&& ATA_TFLAG_POLLING = 0 → (∀ e ∈ qc.cursg, e.dma_length % 8 = 0) →
      qc.cursg.length ≤ n →
      ∃ apf,
        (∀ fuel, (sg_packets C n qc.cursg).length < fuel →
          ack_until_finished C ch fuel ap =
            some ((sg_packets C n qc.cursg).length + 1, apf)) ∧
        apf.sif = ap.sif ++ sg_packets C n qc.cursg ∧
        apf.sff = ap.sff ++ [sff_event.interrupt] ∧
        apf.active = some { qc with cursg := [] } := by
  have hfin : ∀ (qc : ata_queued_cmd) (ap : ps2_port),
      ap.active = some qc → qc.tf.flags &&& ATA_TFLAG_POLLING = 0 → qc.cursg = [] →
      ∃ apf, (∀ fuel, 0 < fuel → ack_until_finished C ch fuel ap = some (1, apf)) ∧
        apf.sif = ap.sif ∧
        apf.sff = ap.sff ++ [sff_event.interrupt] ∧ apf.active = some { qc with cursg := [] } := by
    intro qc ap hact hpoll hnil
    refine ⟨{ ap with sff := ap.sff ++ [sff_event.interrupt] }, ?_, rfl, rfl, ?_⟩
    · intro fuel hfuel
      obtain ⟨f, rfl⟩ : ∃ f, fuel = f + 1 := ⟨fuel - 1, by omega⟩
      simp only [ack_until_finished, cmd_sg_finished C ch qc ap hact hpoll hnil, if_true]
    · simp only [hact, Option.some.injEq]
      cases qc
      simp only at hnil
      subst hnil
      rfl
  intro n
  induction n with
  | zero =>
    intro qc ap hact _ hpoll _ hlen
    have hnil : qc.cursg = [] := List.length_eq_zero.mp (by omega)
    obtain ⟨apf, h1, h2, h3, h4⟩ := hfin qc ap hact hpoll hnil
    exact ⟨apf, by simpa [sg_packets] using h1, by simpa [sg_packets] using h2, h3, h4⟩
  | succ n ih =>
    intro qc ap hact hread hpoll hal hlen
    by_cases hnil : qc.cursg = []
    · obtain ⟨apf, h1, h2, h3, h4⟩ := hfin qc ap hact hpoll hnil
      refine ⟨apf, ?_, ?_, h3, h4⟩
      · simpa [hnil, sg_packets_nil] using h1
      · simpa [hnil, sg_packets_nil] using h2
    · have hpos : 0 < qc.cursg.length := List.length_pos.mpr hnil
      simp only [sg_packets, hnil, if_false, List.length_cons]
      have hstep := cmd_sg_next C ch qc ap hC hact hread hpoll hal hnil
      obtain ⟨apf, h1, h2, h3, h4⟩ := ih { qc with cursg := qc.cursg.drop C }
        (pata_ps2_cmd_sg C ch ap) (by rw [hstep]) hread hpoll
        (fun e he => hal e (List.mem_of_mem_drop he))
        (by simp only [List.length_drop]; omega)
      refine ⟨apf, ?_, ?_, ?_, ?_⟩
      · intro fuel hfuel
        obtain ⟨f, rfl⟩ : ∃ f, fuel = f + 1 := ⟨fuel - 1, by omega⟩
        have hsff : ¬ (pata_ps2_cmd_sg C ch ap).sff = ap.sff ++ [sff_event.interrupt] := by
          rw [hstep]
          intro h
          have := congrArg List.length h
          simp at this
        simp only [ack_until_finished, hsff, if_false, h1 f (by simpa using hfuel)]
      · rw [h2, hstep]
        simp [sg_packet]
      · rw [h3, hstep]
      · simpa using h4

theorem memcpy_outside (mem : Nat → Nat) (dst src : Nat) :
    ∀ (n a : Nat), (a < dst ∨ dst + n ≤ a) → memcpy mem dst src n a = mem a := by
  intro n
  induction n with
  | zero => intro a _; rfl
  | succ n ih =>
    intro a ha
    have hne : a ≠ dst + n := by omega
    simp only [memcpy, hne, if_false]
    exact ih a (by omega)

theorem memcpy_copied (mem : Nat → Nat) (dst src : Nat) :
    ∀ (n : Nat), (src + n ≤ dst ∨ dst + n ≤ src) →
      ∀ i, i < n → memcpy mem dst src n (dst + i) = mem (src + i) := by
  intro n
  induction n with
  | zero => intro _ i hi; omega
  | succ n ih =>
    intro hdis i hi
    by_cases hin : i = n
    · subst hin
      simp only [memcpy, if_true]
      exact memcpy_outside mem dst src i (src + i) (by omega)
    · have hne : dst + i ≠ dst + n := by omega
      simp only [memcpy, hne, if_false]
      exact ih (by omega) i (by omega)

/-- Claim C1 as amended.  A non-polling read command whose entries all have
a size that is a multiple of 8, with `1 ≤ C ≤ 255` and every send
succeeding: issuing it and then delivering acknowledgements until
completion is signalled takes as many acknowledgements as packets are
sent, and sends `max 1 (ceil (N / C))` packets, each with at most `C`
entries and a count field equal to its number of entries, whose entries
in send order are those of the list. -/
theorem packetization_of_read_transfer (C : Nat) (ch : sif_channel) (qc : ata_queued_cmd)
    (ap : ps2_port) (hC1 : 1 ≤ C) (hC : C ≤ 255) (hch : ∀ i, 0 ≤ ch i)
    (hread : qc.tf.flags &&& ATA_TFLAG_WRITE = 0)
    (hpoll : qc.tf.flags &&& ATA_TFLAG_POLLING = 0)
    (hal : ∀ e ∈ qc.sg, e.dma_length % 8 = 0) :
    ∃ (pkts : List sif_packet) (apf : ps2_port),
      (issue_dma C ch qc ap).1 = AC_ERR_OK ∧
      (∀ fuel, pkts.length ≤ fuel →
        ack_until_finished C ch fuel (issue_dma C ch qc ap).2 = some (pkts.length, apf)) ∧
      apf.sif = ap.sif ++ pkts ∧
      apf.sff = ap.sff ++
        [sff_event.tf_load qc.tf, sff_event.exec_command qc.tf, sff_event.interrupt] ∧
      pkts.length = max 1 ((qc.sg.length + C - 1) / C) ∧
      (∀ p ∈ pkts, p.opt.op = rop_sg ∧ p.opt.write = 0 ∧ p.opt.count = p.payload.length ∧
        p.payload.length ≤ C) ∧
      (pkts.map sif_packet.payload).flatten = qc.sg.map sg_entry := by
  have hissue : issue_dma C ch qc ap =
      (AC_ERR_OK,
        { hsm_task_state := HSM_ST_LAST,
          active := some { qc with cursg := qc.sg.drop C },
          sif := ap.sif ++ [sg_packet C qc.sg],
          sff := ap.sff ++ [sff_event.tf_load qc.tf, sff_event.exec_command qc.tf] }) := by
    have hreq := dma_request_aligned C ch { qc with cursg := qc.sg }
      { ap with sff := ap.sff ++ [sff_event.tf_load qc.tf, sff_event.exec_command qc.tf] }
      hC hread hal
    simp only [issue_dma, pata_ps2_qc_issue_dma, List.append_assoc, List.cons_append,
      List.nil_append]
    rw [hreq]
    simp only [not_lt.mpr (hch _), if_false, sg_packet]
  have hrest : (qc.sg.drop C).length ≤ qc.sg.length := by simp
  have hlen := sg_packets_length C hC1 qc.sg.length (qc.sg.drop C) hrest
  simp only [List.length_drop] at hlen
  obtain ⟨apf, h1, h2, h3, _⟩ := ack_until_finished_run C ch hC1 hC qc.sg.length
    { qc with cursg := qc.sg.drop C } (issue_dma C ch qc ap).2
    (by rw [hissue]) hread hpoll (fun e he => hal e (List.mem_of_mem_drop he)) hrest
  refine ⟨sg_packet C qc.sg :: sg_packets C qc.sg.length (qc.sg.drop C), apf, ?_, ?_, ?_, ?_,
    ?_, ?_, ?_⟩
  · rw [hissue]
  · intro fuel hfuel
    exact h1 fuel (by simpa using hfuel)
  · rw [h2, hissue]; simp
  · rw [h3, hissue]; simp
  · simp only [List.length_cons, hlen]
    by_cases hge : C ≤ qc.sg.length
    · have e1 : qc.sg.length + C - 1 = (qc.sg.length - C + C - 1) + C := by omega
      rw [e1, Nat.add_div_right _ (by omega)]
      exact (Nat.max_eq_right (Nat.succ_le_succ (Nat.zero_le _))).symm
    · have e1 : qc.sg.length - C + C - 1 = C - 1 := by omega
      rw [e1, Nat.div_eq_of_lt (by omega)]
      by_cases hz : qc.sg.length = 0
      · rw [hz, Nat.zero_add, Nat.div_eq_of_lt (by omega)]; rfl
      · have e2 : qc.sg.length + C - 1 = (qc.sg.length - 1) + C := by omega
        rw [e2, Nat.add_div_right _ (by omega), Nat.div_eq_of_lt (by omega)]; rfl
  · intro p hp
    rcases List.mem_cons.mp hp with rfl | hp
    · simp [sg_packet, List.length_take]
    · exact sg_packets_bounds C _ _ p hp
  · simp only [List.map_cons, List.flatten_cons, sg_packets_join C hC1 _ _ hrest, sg_packet,
      ← List.map_append, List.take_append_drop]

/-- Witness of `packetization_of_read_transfer`: the list
`[(0x1000, 16), (0x2000, 8)]` with one entry to a packet. -/
theorem packetization_of_read_transfer_witness :
    (1 ≤ 1 ∧ 1 ≤ 255 ∧ (∀ i, 0 ≤ sif_ok i) ∧
      (read_cmd [⟨0x1000, 16⟩, ⟨0x2000, 8⟩]).tf.flags &&& ATA_TFLAG_WRITE = 0 ∧
      (read_cmd [⟨0x1000, 16⟩, ⟨0x2000, 8⟩]).tf.flags &&& ATA_TFLAG_POLLING = 0 ∧
      (∀ e ∈ (read_cmd [⟨0x1000, 16⟩, ⟨0x2000, 8⟩]).sg, e.dma_length % 8 = 0)) ∧
    ∃ (pkts : List sif_packet) (apf : ps2_port),
      (issue_dma 1 sif_ok (read_cmd [⟨0x1000, 16⟩, ⟨0x2000, 8⟩]) port_idle).1 = AC_ERR_OK ∧
      (∀ fuel, pkts.length ≤ fuel →
        ack_until_finished 1 sif_ok fuel
          (issue_dma 1 sif_ok (read_cmd [⟨0x1000, 16⟩, ⟨0x2000, 8⟩]) port_idle).2 =
            some (pkts.length, apf)) ∧
      apf.sif = port_idle.sif ++ pkts ∧
      apf.sff = port_idle.sff ++
        [sff_event.tf_load (read_cmd [⟨0x1000, 16⟩, ⟨0x2000, 8⟩]).tf,
          sff_event.exec_command (read_cmd [⟨0x1000, 16⟩, ⟨0x2000, 8⟩]).tf,
          sff_event.interrupt] ∧
      pkts.length = max 1 (((read_cmd [⟨0x1000, 16⟩, ⟨0x2000, 8⟩]).sg.length + 1 - 1) / 1) ∧
      (∀ p ∈ pkts, p.opt.op = rop_sg ∧ p.opt.write = 0 ∧ p.opt.count = p.payload.length ∧
        p.payload.length ≤ 1) ∧
      (pkts.map sif_packet.payload).flatten =
        (read_cmd [⟨0x1000, 16⟩, ⟨0x2000, 8⟩]).sg.map sg_entry :=
  ⟨⟨by decide, by decide, fun _ => le_refl _, by decide, by decide, by decide⟩,
    packetization_of_read_transfer 1 sif_ok (read_cmd [⟨0x1000, 16⟩, ⟨0x2000, 8⟩]) port_idle
      (by decide) (by decide) (fun _ => le_refl _) (by decide) (by decide) (by decide)⟩

/-- Claim C1 as stated fails for the empty list: with `N = 0` and `C = 1`
the transfer sends one packet, with no entry and count 0, and completes
after one acknowledgement, while `ceil (N / C)` is 0. -/
theorem packetization_empty_list_counterexample :
    (∀ e ∈ (read_cmd []).sg, e.dma_length % 8 = 0) ∧
    (issue_dma 1 sif_ok (read_cmd []) port_idle).1 = AC_ERR_OK ∧
    ack_until_finished 1 sif_ok 1 (issue_dma 1 sif_ok (read_cmd []) port_idle).2 =
      some (1,
        { hsm_task_state := HSM_ST_LAST,
          active := some (read_cmd []),
          sif := [{ opt := { op := rop_sg, count := 0, write := 0 }, payload := [] }],
          sff := [sff_event.tf_load (read_cmd []).tf, sff_event.exec_command (read_cmd []).tf,
            sff_event.interrupt] }) ∧
    [({ opt := { op := rop_sg, count := 0, write := 0 }, payload := [] } : sif_packet)].length ≠
      ((read_cmd []).sg.length + 1 - 1) / 1 := by
  decide

/-- Claim C2.  For a read command, when one of the next `min C remaining`
entries from the cursor has a size that is not a multiple of 8,
`pata_ps2_dma_request` returns `AC_ERR_SYSTEM` and leaves the port as it
was: no packet is handed to the channel, `hsm_task_state` is untouched. -/
theorem alignment_rejection (C : Nat) (ch : sif_channel) (qc : ata_queued_cmd) (ap : ps2_port)
    (hread : qc.tf.flags &&& ATA_TFLAG_WRITE = 0)
    (hmis : ∃ e ∈ qc.cursg.take (min C qc.cursg.length), e.dma_length % 8 ≠ 0) :
    (pata_ps2_dma_request C ch qc ap).1 = AC_ERR_SYSTEM ∧
    (pata_ps2_dma_request C ch qc ap).2.2 = ap ∧
    (pata_ps2_dma_request C ch qc ap).2.2.sif = ap.sif := by
  have hloop := dma_request_loop_misaligned C qc.cursg { op := rop_sg, count := 0, write := 0 }
    (List.replicate C { addr := 0, size := 0 }) (min C qc.cursg.length) (by norm_num)
    (by simp only [Nat.add_zero]; exact Nat.min_le_left _ _) hmis
  obtain ⟨h1, h2⟩ := dma_request_loop_return C ch qc ap AC_ERR_SYSTEM hread hloop
  exact ⟨h1, h2, by rw [h2]⟩

/-- Witness of `alignment_rejection`: the single entry `(0x3000, 7)`. -/
theorem alignment_rejection_witness :
    ((read_cmd [⟨0x3000, 7⟩]).tf.flags &&& ATA_TFLAG_WRITE = 0 ∧
      ∃ e ∈ ({ read_cmd [⟨0x3000, 7⟩] with cursg := [⟨0x3000, 7⟩] } : ata_queued_cmd).cursg.take
          (min 1 ({ read_cmd [⟨0x3000, 7⟩] with cursg := [⟨0x3000, 7⟩] } :
            ata_queued_cmd).cursg.length),
        e.dma_length % 8 ≠ 0) ∧
    (pata_ps2_dma_request 1 sif_ok { read_cmd [⟨0x3000, 7⟩] with cursg := [⟨0x3000, 7⟩] }
      port_idle).1 = AC_ERR_SYSTEM ∧
    (pata_ps2_dma_request 1 sif_ok { read_cmd [⟨0x3000, 7⟩] with cursg := [⟨0x3000, 7⟩] }
      port_idle).2.2 = port_idle ∧
    (pata_ps2_dma_request 1 sif_ok { read_cmd [⟨0x3000, 7⟩] with cursg := [⟨0x3000, 7⟩] }
      port_idle).2.2.sif = port_idle.sif :=
  ⟨⟨by decide, by decide⟩,
    alignment_rejection 1 sif_ok { read_cmd [⟨0x3000, 7⟩] with cursg := [⟨0x3000, 7⟩] } port_idle
      (by decide) (by decide)⟩

/-- Claim C3.  For every command with `ATA_TFLAG_WRITE` set and every
scatter-gather list, `pata_ps2_dma_request` returns `AC_ERR_INVALID` and
leaves the command (its cursor included) and the port (its packets and
`hsm_task_state` included) as they were; and `pata_ps2_qc_issue` on such a
command of protocol `ATA_PROT_DMA` returns `AC_ERR_INVALID` with no packet
sent. -/
theorem write_dma_rejected (C : Nat) (ch : sif_channel) (sff_ret : Nat) (qc : ata_queued_cmd)
    (ap : ps2_port) (hwrite : qc.tf.flags &&& ATA_TFLAG_WRITE ≠ 0) :
    pata_ps2_dma_request C ch qc ap = (AC_ERR_INVALID, qc, ap) ∧
    (pata_ps2_qc_issue C ch sff_ret
      { qc with tf := { qc.tf with protocol := ATA_PROT_DMA } } ap).1 = AC_ERR_INVALID ∧
    (pata_ps2_qc_issue C ch sff_ret
      { qc with tf := { qc.tf with protocol := ATA_PROT_DMA } } ap).2.2.sif = ap.sif ∧
    (pata_ps2_qc_issue C ch sff_ret
      { qc with tf := { qc.tf with protocol := ATA_PROT_DMA } } ap).2.2.hsm_task_state =
        ap.hsm_task_state := by
  have hreq : ∀ (q : ata_queued_cmd) (p : ps2_port), q.tf.flags &&& ATA_TFLAG_WRITE ≠ 0 →
      pata_ps2_dma_request C ch q p = (AC_ERR_INVALID, q, p) := by
    intro q p hq
    unfold pata_ps2_dma_request
    simp [hq]
  refine ⟨hreq qc ap hwrite, ?_, ?_, ?_⟩ <;>
    simp only [pata_ps2_qc_issue, pata_ps2_qc_issue_dma, if_true] <;>
    rw [hreq _ _ (by exact hwrite)]

/-- Witness of `write_dma_rejected`: a DMA write of one aligned entry. -/
theorem write_dma_rejected_witness :
    (write_cmd [⟨0x1000, 16⟩]).tf.flags &&& ATA_TFLAG_WRITE ≠ 0 ∧
    pata_ps2_dma_request 14 sif_ok (write_cmd [⟨0x1000, 16⟩]) port_idle =
      (AC_ERR_INVALID, write_cmd [⟨0x1000, 16⟩], port_idle) ∧
    (pata_ps2_qc_issue 14 sif_ok 0
      { write_cmd [⟨0x1000, 16⟩] with
        tf := { (write_cmd [⟨0x1000, 16⟩]).tf with protocol := ATA_PROT_DMA } }
      port_idle).1 = AC_ERR_INVALID ∧
    (pata_ps2_qc_issue 14 sif_ok 0
      { write_cmd [⟨0x1000, 16⟩] with
        tf := { (write_cmd [⟨0x1000, 16⟩]).tf with protocol := ATA_PROT_DMA } }
      port_idle).2.2.sif = port_idle.sif ∧
    (pata_ps2_qc_issue 14 sif_ok 0
      { write_cmd [⟨0x1000, 16⟩] with
        tf := { (write_cmd [⟨0x1000, 16⟩]).tf with protocol := ATA_PROT_DMA } }
      port_idle).2.2.hsm_task_state = port_idle.hsm_task_state :=
  ⟨by decide, write_dma_rejected 14 sif_ok 0 (write_cmd [⟨0x1000, 16⟩]) port_idle (by decide)⟩

/-- Claim C4 fails on the acknowledgement path.  With `C = 1`, a read of
the list `[(0x1000, 8), (0x3000, 7)]` is issued without error and sends its
first packet; on the acknowledgement `pata_ps2_dma_request` returns
`AC_ERR_SYSTEM` for the second entry, and `pata_ps2_cmd_sg` leaves the port
exactly as it was: no error is recorded on the command, completion is not
signalled, and no number of further acknowledgements changes that. -/
theorem ack_path_drops_request_error :
    (issue_dma 1 sif_ok (read_cmd [⟨0x1000, 8⟩, ⟨0x3000, 7⟩]) port_idle).1 = AC_ERR_OK ∧
    (issue_dma 1 sif_ok (read_cmd [⟨0x1000, 8⟩, ⟨0x3000, 7⟩]) port_idle).2.active =
      some { read_cmd [⟨0x1000, 8⟩, ⟨0x3000, 7⟩] with cursg := [⟨0x3000, 7⟩] } ∧
    (pata_ps2_dma_request 1 sif_ok
      { read_cmd [⟨0x1000, 8⟩, ⟨0x3000, 7⟩] with cursg := [⟨0x3000, 7⟩] }
      (issue_dma 1 sif_ok (read_cmd [⟨0x1000, 8⟩, ⟨0x3000, 7⟩]) port_idle).2).1 = AC_ERR_SYSTEM ∧
    pata_ps2_cmd_sg 1 sif_ok (issue_dma 1 sif_ok (read_cmd [⟨0x1000, 8⟩, ⟨0x3000, 7⟩]) port_idle).2 =
      (issue_dma 1 sif_ok (read_cmd [⟨0x1000, 8⟩, ⟨0x3000, 7⟩]) port_idle).2 ∧
    (∀ fuel, ack_until_finished 1 sif_ok fuel
      (issue_dma 1 sif_ok (read_cmd [⟨0x1000, 8⟩, ⟨0x3000, 7⟩]) port_idle).2 = none) := by
  have hfix : pata_ps2_cmd_sg 1 sif_ok
      (issue_dma 1 sif_ok (read_cmd [⟨0x1000, 8⟩, ⟨0x3000, 7⟩]) port_idle).2 =
      (issue_dma 1 sif_ok (read_cmd [⟨0x1000, 8⟩, ⟨0x3000, 7⟩]) port_idle).2 := by decide
  refine ⟨by decide, by decide, by decide, hfix, ?_⟩
  intro fuel
  induction fuel with
  | zero => rfl
  | succ f ih =>
    have hne : ¬ (issue_dma 1 sif_ok (read_cmd [⟨0x1000, 8⟩, ⟨0x3000, 7⟩]) port_idle).2.sff =
        (issue_dma 1 sif_ok (read_cmd [⟨0x1000, 8⟩, ⟨0x3000, 7⟩]) port_idle).2.sff ++
          [sff_event.interrupt] := by decide
    simp only [ack_until_finished, hfix, hne, if_false, ih]

/-- Claim C5.  When the port has no active command, or its active command
has `ATA_TFLAG_POLLING` set, an inbound ScatterGather packet leaves the port
as it was (no packet sent, no completion signalled, cursor and every other
field unchanged), and so does any number of them. -/
theorem spurious_ack_is_noop (C : Nat) (ch : sif_channel) (ap : ps2_port)
    (h : ap.active = none ∨
      ∃ qc, ap.active = some qc ∧ qc.tf.flags &&& ATA_TFLAG_POLLING ≠ 0) :
    pata_ps2_cmd_sg C ch ap = ap ∧ ∀ n, Nat.iterate (pata_ps2_cmd_sg C ch) n ap = ap := by
  have hone : pata_ps2_cmd_sg C ch ap = ap := by
    unfold pata_ps2_cmd_sg
    rcases h with h | ⟨qc, h, hp⟩
    · rw [h]
    · rw [h]
      simp only [hp, if_false]
  refine ⟨hone, ?_⟩
  intro n
  induction n with
  | zero => rfl
  | succ n ih => rw [Function.iterate_succ_apply, hone, ih]

/-- Witness of `spurious_ack_is_noop`: a port with no active command. -/
theorem spurious_ack_is_noop_witness :
    (port_idle.active = none ∨
      ∃ qc, port_idle.active = some qc ∧ qc.tf.flags &&& ATA_TFLAG_POLLING ≠ 0) ∧
    pata_ps2_cmd_sg 14 sif_ok port_idle = port_idle ∧
    ∀ n, Nat.iterate (pata_ps2_cmd_sg 14 sif_ok) n port_idle = port_idle :=
  ⟨Or.inl rfl, spurious_ack_is_noop 14 sif_ok port_idle (Or.inl rfl)⟩

/-- Claim C9.  For a RawRead request whose source and destination ranges do
not overlap, `pata_ps2_cmd_rd` leaves the `size` bytes that were at the
source at the destination, leaves every byte outside the destination range
as it was, and sends no packet; a request of size 0 changes nothing, for
every source and destination. -/
theorem raw_read_copies (phys_to_virt : Nat → Nat) (rd : ata_sif_rd) (h : ps2_host)
    (hdis : phys_to_virt rd.src + rd.size ≤ phys_to_virt rd.dst ∨
      phys_to_virt rd.dst + rd.size ≤ phys_to_virt rd.src) :
    (∀ i, i < rd.size →
      (pata_ps2_cmd_rd phys_to_virt rd h).mem (phys_to_virt rd.dst + i) =
        h.mem (phys_to_virt rd.src + i)) ∧
    (∀ a, (a < phys_to_virt rd.dst ∨ phys_to_virt rd.dst + rd.size ≤ a) →
      (pata_ps2_cmd_rd phys_to_virt rd h).mem a = h.mem a) ∧
    (pata_ps2_cmd_rd phys_to_virt rd h).port = h.port ∧
    (pata_ps2_cmd_rd phys_to_virt rd h).sif_data = h.sif_data ∧
    (∀ src dst, pata_ps2_cmd_rd phys_to_virt { src := src, dst := dst, size := 0 } h = h) := by
  refine ⟨?_, ?_, ?_, ?_, ?_⟩
  · intro i hi
    have hne : rd.size ≠ 0 := by omega
    simp only [pata_ps2_cmd_rd, hne, ne_eq, not_false_eq_true, if_true]
    exact memcpy_copied h.mem _ _ rd.size hdis i hi
  · intro a ha
    by_cases hz : rd.size = 0
    · simp [pata_ps2_cmd_rd, hz]
    · simp only [pata_ps2_cmd_rd, hz, ne_eq, not_false_eq_true, if_true]
      exact memcpy_outside h.mem _ _ rd.size a ha
  · by_cases hz : rd.size = 0 <;> simp [pata_ps2_cmd_rd, hz]
  · by_cases hz : rd.size = 0 <;> simp [pata_ps2_cmd_rd, hz]
  · intro src dst
    simp [pata_ps2_cmd_rd]

/-- An inbound packet whose option word carries the opcode `rop_rd` is
handled by `pata_ps2_cmd_rd`. -/
theorem sif_cmd_dispatch_rd (C : Nat) (ch : sif_channel) (phys_to_virt : Nat → Nat)
    (header : sif_cmd_header) (h : ps2_host) (hop : header.opt % 2 ^ 3 = rop_rd) :
    pata_ps2_sif_cmd C ch phys_to_virt header h = pata_ps2_cmd_rd phys_to_virt header.payload h := by
  have h8 : header.opt % 8 = 2 := by simpa [rop_rd] using hop
  simp [pata_ps2_sif_cmd, ata_sif_opt.ofRaw, h8, rop_rd, rop_sg]

/-! ## Part 5: the properties at concrete inputs -/

/-- Witness of `exp_dev_reset_power_on`: every read yields 6, from module load. -/
theorem exp_dev_reset_power_on_witness :
    ((∀ i, i < 7 → 0 ≤ (regs_const 6 (iop_boot.n + i)).1) ∧
      (((regs_const 6 iop_boot.n).2 % 2 ^ 16) &&& 0x1 = 0)) ∧
    (exp_dev_reset (regs_const 6) iop_boot =
      (0, { iop_boot with
              n := iop_boot.n + 7,
              trace := iop_boot.trace ++ power_on_events (regs_const 6) iop_boot.n }) ∧
    ((power_on_events (regs_const 6) iop_boot.n).filter iop_event.isSleep =
      [iop_event.msleep 500, iop_event.msleep 500]) ∧
    ((power_on_events (regs_const 6) iop_boot.n).filter iop_event.isWrite).length = 3 ∧
    ((power_on_events (regs_const 6) iop_boot.n).filter iop_event.isAccess).length = 7) :=
  ⟨⟨fun _ _ => le_refl _, by decide⟩,
    exp_dev_reset_power_on (regs_const 6) iop_boot (fun _ _ => le_refl _) (by decide)⟩

/-- Witness of `exp_dev_absent`: probe value 1 (absent) and probe value 0. -/
theorem exp_dev_absent_witness :
    (0 ≤ (regs_const 1 iop_boot.n).1 ∧ ((regs_const 1 iop_boot.n).2 % 2 ^ 16) &&& 0x1 ≠ 0 ∧
      (exp_dev_probe (regs_const 1) iop_boot).1 = -ENODEV ∧
      exp_dev_reset (regs_const 1) iop_boot =
        (-ENODEV, { iop_boot with
                      n := iop_boot.n + 1,
                      trace := iop_boot.trace ++ [iop_event.readw 0xbf801462] })) ∧
    (0 ≤ (regs_const 0 iop_boot.n).1 ∧ ((regs_const 0 iop_boot.n).2 % 2 ^ 16) &&& 0x1 = 0 ∧
      (exp_dev_probe (regs_const 0) iop_boot).1 = 0) :=
  ⟨⟨le_refl _, by decide,
      (exp_dev_absent (regs_const 1) iop_boot (le_refl _)).1 (by decide)⟩,
    ⟨le_refl _, by decide,
      (exp_dev_absent (regs_const 0) iop_boot (le_refl _)).2 (by decide)⟩⟩

theorem regs_fail_at_ok (k : Nat) (e : Int) (v i : Nat) (h : i ≠ k) :
    0 ≤ (regs_fail_at k e v i).1 := by
  simp [regs_fail_at, h]

/-- Witness of `exp_dev_reset_abort`: the fourth access (the read of 0x1460)
fails with -5. -/
theorem exp_dev_reset_abort_witness :
    (1 ≤ 4 ∧ 4 ≤ 7 ∧ (∀ i, i + 1 < 4 → 0 ≤ (regs_fail_at 3 (-5) 6 (iop_boot.n + i)).1) ∧
      (2 ≤ 4 → ((regs_fail_at 3 (-5) 6 iop_boot.n).2 % 2 ^ 16) &&& 0x1 = 0) ∧
      (regs_fail_at 3 (-5) 6 (iop_boot.n + (4 - 1))).1 = -5 ∧ (-5 : Int) < 0) ∧
    exp_dev_reset (regs_fail_at 3 (-5) 6) iop_boot =
      (-5, { iop_boot with
              n := iop_boot.n + 4,
              trace := iop_boot.trace ++
                (power_on_events (regs_fail_at 3 (-5) 6) iop_boot.n).take
                  (if 4 < 4 then 4 else 4 + 1) }) :=
  ⟨⟨by decide, by decide,
      fun i hi => regs_fail_at_ok 3 (-5) 6 (iop_boot.n + i) (by simp only [iop_boot]; omega),
      fun _ => by decide, by decide, by decide⟩,
    exp_dev_reset_abort (regs_fail_at 3 (-5) 6) iop_boot 4 (-5) (by decide) (by decide)
      (fun i hi => regs_fail_at_ok 3 (-5) 6 (iop_boot.n + i) (by simp only [iop_boot]; omega))
      (fun _ => by decide) (by decide) (by decide)⟩

/-- Witness of `raw_read_copies`: 16 bytes from physical 0x1000 to 0x2000
through the translation `a + 0x80000000`. -/
theorem raw_read_copies_witness :
    ((0x1000 + 0x80000000) + 16 ≤ 0x2000 + 0x80000000 ∨
      (0x2000 + 0x80000000) + 16 ≤ 0x1000 + 0x80000000) ∧
    ((∀ i, i < 16 →
      (pata_ps2_cmd_rd (fun a => a + 0x80000000) ⟨0x1000, 0x2000, 16⟩ host_idle).mem
          (0x2000 + 0x80000000 + i) =
        host_idle.mem (0x1000 + 0x80000000 + i)) ∧
    (∀ a, (a < 0x2000 + 0x80000000 ∨ 0x2000 + 0x80000000 + 16 ≤ a) →
      (pata_ps2_cmd_rd (fun a => a + 0x80000000) ⟨0x1000, 0x2000, 16⟩ host_idle).mem a =
        host_idle.mem a) ∧
    (pata_ps2_cmd_rd (fun a => a + 0x80000000) ⟨0x1000, 0x2000, 16⟩ host_idle).port =
      host_idle.port ∧
    (pata_ps2_cmd_rd (fun a => a + 0x80000000) ⟨0x1000, 0x2000, 16⟩ host_idle).sif_data =
      host_idle.sif_data ∧
    (∀ src dst,
      pata_ps2_cmd_rd (fun a => a + 0x80000000) { src := src, dst := dst, size := 0 }
        host_idle = host_idle)) :=
  ⟨Or.inl (by decide),
    raw_read_copies (fun a => a + 0x80000000) ⟨0x1000, 0x2000, 16⟩ host_idle
      (Or.inl (by decide))⟩
